import Mathlib

/-!
Verification development for the two-stage poster-generation pipeline
(`src/App.tsx`, `src/services/geminiService.ts`).

The TypeScript source is shallowly embedded: strings are Lean `String`s
(worked on as `List Char`), JavaScript `undefined`/`null` gaps are `Option`,
thrown JS errors are `Except`, and the two remote calls are oracles passed
in as explicit arguments.  Each definition is translated from the named
source function; comments cite the source lines.
-/

/-! ## Character-list utilities mirroring the JavaScript string primitives -/

/-- JavaScript `String.prototype.split(sep)` restricted to a single-character
separator, on the character list of the string.  `"".split(',') = [""]`,
`"a,,b".split(',') = ["a","","b"]`. -/
def jsSplit (sep : Char) : List Char → List (List Char)
  | [] => [[]]
  | c :: rest =>
    if c = sep then [] :: jsSplit sep rest
    else
      match jsSplit sep rest with
      | [] => [[c]]
      | h :: t => (c :: h) :: t

/-- Index of the first occurrence of `c` (JavaScript `indexOf`, but `Option`
instead of `-1`). -/
def firstIdx (c : Char) : List Char → Option Nat
  | [] => none
  | x :: xs => if x = c then some 0 else (firstIdx c xs).map (· + 1)

/-- Index of the last occurrence of `c` (JavaScript `lastIndexOf`, but
`Option` instead of `-1`). -/
def lastIdx (c : Char) (l : List Char) : Option Nat :=
  (firstIdx c l.reverse).map (fun i => l.length - 1 - i)

/-- JavaScript `String.prototype.substring(a, b)`: swaps the endpoints when
`a > b` and clamps to the string length. -/
def jsSubstringL (l : List Char) (a b : Nat) : List Char :=
  (l.drop (min a b)).take (max a b - min a b)

/-- Whitespace stripped by JavaScript `String.prototype.trim` (the common
ASCII part of the WhiteSpace/LineTerminator productions). -/
def isJsWs (c : Char) : Bool :=
  c = ' ' || c = '\t' || c = '\n' || c = '\r' || c = '\x0b' || c = '\x0c'

/-- JavaScript `String.prototype.trim` on a character list. -/
def jsTrimL (l : List Char) : List Char :=
  ((l.dropWhile isJsWs).reverse.dropWhile isJsWs).reverse

/-- `needle.isPrefixOf (hay.drop i)` for some `i`: JavaScript
`String.prototype.includes` (substring containment). -/
def containsSub (needle hay : List Char) : Bool :=
  (List.range (hay.length + 1)).any (fun i => needle.isPrefixOf (hay.drop i))

/-- JavaScript `hay.includes(needle)` on `String`s. -/
def strContains (needle hay : String) : Bool :=
  containsSub needle.data hay.data

/-! ## Media codec

`src/services/geminiService.ts` decodes an incoming data URL twice with the
same inlined code (lines 85-93 in `engineerPrompt` and 227-234 in
`generatePosterImage`):

    const matches = imageBase64.match(/^data:(.+);base64,(.+)$/);
    const mimeType = matches ? matches[1] : "image/jpeg";
    const data = matches ? matches[2] : imageBase64.split(',')[1];

and re-encodes the returned image as
`` `data:${mimeType};base64,${data}` `` (line 284). -/

/-- The literal `;base64,` separator of the regular expression. -/
def base64Sep : List Char := [';', 'b', 'a', 's', 'e', '6', '4', ',']

/-- The prefix literal `data:` of the regular expression. -/
def dataColon : List Char := ['d', 'a', 't', 'a', ':']

/-- Is `k` a position at which `/^data:(.+);base64,(.+)$/` may split
`rest` (the text after `data:`) into group 1 (`rest.take k`) and group 2
(after the separator)?  Both groups must be non-empty, hence `1 ≤ k` and
`k + 8 < rest.length`. -/
def validSplitPos (l : List Char) (k : Nat) : Bool :=
  base64Sep.isPrefixOf (l.drop k) && decide (1 ≤ k) && decide (k + 8 < l.length)

/-- Backtracking search of the greedy regex engine: the first group `(.+)`
is maximal, so the separator is matched at the largest valid position.
Scans candidate positions downward from `k`. -/
def greedyPosGo (l : List Char) : Nat → Option Nat
  | 0 => none
  | k + 1 => if validSplitPos l (k + 1) then some (k + 1) else greedyPosGo l k

/-- `imageBase64.match(/^data:(.+);base64,(.+)$/)` as the pair of captured
groups.  `.` does not match a newline and the groups are greedy/non-empty;
since group 2 runs to `$`, a match requires the whole text after `data:` to
be newline-free. -/
def dataUrlMatch (s : String) : Option (String × String) :=
  if dataColon.isPrefixOf s.data then
    let rest := s.data.drop 5
    if rest.contains '\n' then none
    else
      match greedyPosGo rest rest.length with
      | some k => some (⟨rest.take k⟩, ⟨rest.drop (k + 8)⟩)
      | none => none
  else none

/-- The decode step of both stages: on a regex match, the captured MIME type
and payload; otherwise the `"image/jpeg"` fallback with
`imageBase64.split(',')[1]` (which is `none` when the string has no comma,
JavaScript `undefined`). -/
def decodeDataUrl (s : String) : String × Option String :=
  match dataUrlMatch s with
  | some (m, p) => (m, some p)
  | none => ("image/jpeg", ((jsSplit ',' s.data).get? 1).map (fun l => ⟨l⟩))

/-- The encode step of `generatePosterImage` (line 284):
`` `data:${mimeType};base64,${data}` ``. -/
def encodeDataUrl (mimeType payload : String) : String :=
  "data:" ++ mimeType ++ ";base64," ++ payload

/-! Basic facts about the utilities. -/

theorem jsSplit_of_not_mem {sep : Char} {l : List Char} (h : sep ∉ l) :
    jsSplit sep l = [l] := by
  induction l with
  | nil => rfl
  | cons c rest ih =>
    have hc : ¬ c = sep := fun hcs => h (hcs ▸ List.mem_cons_self c rest)
    have hr : sep ∉ rest := fun hm => h (List.mem_cons_of_mem c hm)
    simp [jsSplit, hc, ih hr]

theorem jsSplit_head {sep : Char} (l : List Char) :
    ∃ t, jsSplit sep l = l.takeWhile (fun c => c != sep) :: t := by
  induction l with
  | nil => exact ⟨[], rfl⟩
  | cons c rest ih =>
    by_cases hc : c = sep
    · subst hc
      refine ⟨jsSplit c rest, ?_⟩
      simp [jsSplit, List.takeWhile]
    · obtain ⟨t, ht⟩ := ih
      refine ⟨t, ?_⟩
      have hb : (c != sep) = true := by simp [bne, hc]
      simp [jsSplit, hc, ht, List.takeWhile, hb]

theorem jsSplit_append_sep {pre rest : List Char} (h : ',' ∉ pre) :
    jsSplit ',' (pre ++ ',' :: rest) = pre :: jsSplit ',' rest := by
  induction pre with
  | nil => simp [jsSplit]
  | cons c pre' ih =>
    have hc : ¬ c = ',' := fun hcs => h (hcs ▸ List.mem_cons_self c pre')
    have hp : ',' ∉ pre' := fun hm => h (List.mem_cons_of_mem c hm)
    simp only [List.cons_append, jsSplit, hc, if_false, List.append_eq, ih hp]

theorem greedyPosGo_valid {l : List Char} {n k : Nat}
    (h : greedyPosGo l n = some k) : validSplitPos l k = true := by
  induction n with
  | zero => simp [greedyPosGo] at h
  | succ m ih =>
    by_cases hv : validSplitPos l (m + 1) = true
    · simp [greedyPosGo, hv] at h
      exact h ▸ hv
    · simp [greedyPosGo, hv] at h
      exact ih h

/-! ## JSON values and a model of the platform `JSON.parse`

The parsed result of `JSON.parse(jsonString) as EngineeredPrompt`
(`geminiService.ts` line 167) is an arbitrary JSON value: the cast performs
no runtime validation.  `MiniJson` is the value universe. -/

inductive MiniJson where
  | null
  | bool (b : Bool)
  | num (n : Int)
  | str (s : String)
  | arr (items : List MiniJson)
  | obj (fields : List (String × MiniJson))

/-- JavaScript truthiness of a JSON value (objects and arrays are always
truthy, `null`/`false`/`0`/`""` are falsy). -/
def jsTruthy : MiniJson → Bool
  | .null => false
  | .bool b => b
  | .num n => n != 0
  | .str s => s != ""
  | .arr _ => true
  | .obj _ => true

/-- JavaScript property read `v[k]` on a JSON value: `none` is `undefined`.
Non-object values have no own properties (reads on them yield `undefined`);
for duplicate keys the later assignment wins, matching `JSON.parse`. -/
def jsGetField (v : MiniJson) (k : String) : Option MiniJson :=
  match v with
  | .obj fs => fs.reverse.lookup k
  | _ => none

/-- JavaScript whitespace skipped by `JSON.parse` between tokens. -/
def skipWs : List Char → List Char
  | c :: cs => if c = ' ' ∨ c = '\t' ∨ c = '\n' ∨ c = '\r' then skipWs cs else c :: cs
  | [] => []

/-- One escape character inside a JSON string literal (`\uXXXX` is not
modelled; inputs using it fall outside this model of the platform parser). -/
def unescapeChar (c : Char) : Option Char :=
  if c = '"' then some '"'
  else if c = '\\' then some '\\'
  else if c = '/' then some '/'
  else if c = 'n' then some '\n'
  else if c = 't' then some '\t'
  else if c = 'r' then some '\r'
  else if c = 'b' then some '\x08'
  else if c = 'f' then some '\x0c'
  else none

/-- Body of a JSON string literal, after the opening quote: returns the
decoded characters and the remainder after the closing quote. -/
def parseStrAux : Nat → List Char → Option (List Char × List Char)
  | _, '"' :: rest => some ([], rest)
  | fuel + 1, '\\' :: e :: rest =>
    match unescapeChar e with
    | some c => (parseStrAux fuel rest).map (fun p => (c :: p.1, p.2))
    | none => none
  | fuel + 1, c :: rest =>
    if c = '\\' then none
    else (parseStrAux fuel rest).map (fun p => (c :: p.1, p.2))
  | _, _ => none

/-- A run of decimal digits as an integer JSON number.  Refuses a following
`.`/`e`/`E`: fractional and exponent forms are outside this model. -/
def parseDigits (l : List Char) : Option (Nat × List Char) :=
  let ds := l.takeWhile Char.isDigit
  if ds.isEmpty then none
  else
    let rest := l.drop ds.length
    match rest with
    | '.' :: _ => none
    | 'e' :: _ => none
    | 'E' :: _ => none
    | _ => some (ds.foldl (fun a c => a * 10 + (c.toNat - 48)) 0, rest)

mutual

/-- One JSON value, fuel-indexed recursive descent.  Modelled from the
platform: this is `JSON.parse`'s grammar restricted to integer numbers and
`\uXXXX`-free strings, which covers every input these theorems evaluate. -/
def parseVal : Nat → List Char → Option (MiniJson × List Char)
  | 0, _ => none
  | fuel + 1, l =>
    match skipWs l with
    | '"' :: rest => (parseStrAux (rest.length + 1) rest).map (fun p => (.str ⟨p.1⟩, p.2))
    | '\x7b' :: rest =>
      (match skipWs rest with
       | '\x7d' :: r => some (.obj [], r)
       | _ => (parseObjEntries fuel rest).map (fun p => (.obj p.1, p.2)))
    | '[' :: rest =>
      (match skipWs rest with
       | ']' :: r => some (.arr [], r)
       | _ => (parseArrEntries fuel rest).map (fun p => (.arr p.1, p.2)))
    | '-' :: rest => (parseDigits rest).map (fun p => (.num (-(p.1 : Int)), p.2))
    | l' =>
      if ['n', 'u', 'l', 'l'].isPrefixOf l' then some (.null, l'.drop 4)
      else if ['t', 'r', 'u', 'e'].isPrefixOf l' then some (.bool true, l'.drop 4)
      else if ['f', 'a', 'l', 's', 'e'].isPrefixOf l' then some (.bool false, l'.drop 5)
      else (parseDigits l').map (fun p => (.num (p.1 : Int), p.2))

/-- `"key": value` entries of a JSON object, separated by `,`, ended by `}`. -/
def parseObjEntries : Nat → List Char → Option (List (String × MiniJson) × List Char)
  | 0, _ => none
  | fuel + 1, l =>
    match skipWs l with
    | '"' :: rest =>
      match parseStrAux (rest.length + 1) rest with
      | none => none
      | some (k, r1) =>
        match skipWs r1 with
        | ':' :: r2 =>
          match parseVal fuel r2 with
          | none => none
          | some (v, r3) =>
            match skipWs r3 with
            | ',' :: r4 => (parseObjEntries fuel r4).map (fun p => ((⟨k⟩, v) :: p.1, p.2))
            | '\x7d' :: r4 => some ([(⟨k⟩, v)], r4)
            | _ => none
        | _ => none
    | _ => none

/-- Items of a JSON array, separated by `,`, ended by `]`. -/
def parseArrEntries : Nat → List Char → Option (List MiniJson × List Char)
  | 0, _ => none
  | fuel + 1, l =>
    match parseVal fuel l with
    | none => none
    | some (v, r1) =>
      match skipWs r1 with
      | ',' :: r2 => (parseArrEntries fuel r2).map (fun p => (v :: p.1, p.2))
      | ']' :: r2 => some ([v], r2)
      | _ => none

end

/-- Model of the platform `JSON.parse`: parse one value and require only
whitespace to remain. -/
def miniJsonParse (s : String) : Option MiniJson :=
  match parseVal (s.length + 1) s.data with
  | some (v, rest) => if skipWs rest = [] then some v else none
  | none => none

/-! ## JavaScript error outcomes

A computation either returns, throws an `Error` with a message (`thrown`),
or crashes with a `TypeError` from a property read on `undefined`
(`typeError`). -/

inductive JsError where
  | typeError
  | thrown (msg : String)
deriving DecidableEq

/-! ## Prompt Engineering Stage: live-data keyword rewrite

`geminiService.ts` lines 95-102 of `engineerPrompt`:

    let finalInputText = inputText;
    const dataKeywords = ["stock", "price", "weather", "news", "score"];
    const needsSearch = inputText && dataKeywords.some(kw => inputText.toLowerCase().includes(kw));
    if (needsSearch) {
        finalInputText = `User Query: "${inputText}". \nINSTRUCTION: ...`;
    } -/

/-- The fixed live-data keyword list. -/
def dataKeywords : List String := ["stock", "price", "weather", "news", "score"]

/-- `inputText.toLowerCase()`; `Char.toLower` lower-cases the ASCII range,
which covers the ASCII keyword comparisons performed on it. -/
def jsToLowerStr (s : String) : String := ⟨s.data.map Char.toLower⟩

/-- `inputText && dataKeywords.some(kw => inputText.toLowerCase().includes(kw))`
(an empty `inputText` is falsy). -/
def needsSearch (inputText : String) : Bool :=
  (inputText != "") && dataKeywords.any (fun kw => strContains kw (jsToLowerStr inputText))

/-- The rewritten text part (template literal of line 101; `\n` is a
newline). -/
def searchRewrite (inputText : String) : String :=
  "User Query: \"" ++ inputText ++
    "\". \nINSTRUCTION: USE GOOGLE SEARCH to find the current live data value."

/-- The text part sent to the model: rewritten exactly when `needsSearch`. -/
def finalInputText (inputText : String) : String :=
  if needsSearch inputText then searchRewrite inputText else inputText

/-! ## Prompt Engineering Stage: response handling

`geminiService.ts` lines 140-181 of `engineerPrompt`.  The response shape:
optional `candidates` list whose members carry an optional `finishReason`
and (via `groundingMetadata?.groundingChunks`, collapsed into one optional
field here) optional grounding chunks, plus optional response `text`. -/

/-- One grounding chunk: its optional `web` reference with optional
`title`/`uri`. -/
structure GroundingChunk where
  web : Option (Option String × Option String)

structure EngCandidate where
  finishReason : Option String
  groundingChunks : Option (List GroundingChunk)

structure EngResponse where
  candidates : Option (List EngCandidate)
  text : Option String

/-- `!response.text` is false: `text` present and non-empty. -/
def hasText (r : EngResponse) : Bool :=
  match r.text with
  | none => false
  | some t => t != ""

/-- Template-literal coercion of a possibly-undefined string. -/
def jsStrOf : Option String → String
  | some s => s
  | none => "undefined"

def emptyResponseMsg : String :=
  "The AI returned an empty response. Please try again with a different prompt or image."

def parseFailMsg : String := "Failed to parse generated prompt."

/-- Lines 160-163: trim the text, and when it contains `'\x7b'`, take
`substring(indexOf('\x7b'), lastIndexOf('\x7d') + 1)` (with JavaScript
`substring` endpoint swapping; a missing `'\x7d'` gives end position `0`). -/
def extractBraces (l : List Char) : List Char :=
  match firstIdx '\x7b' l with
  | none => l
  | some i =>
    let e : Nat :=
      match lastIdx '\x7d' l with
      | some j => j + 1
      | none => 0
    jsSubstringL l i e

def extractJsonString (s : String) : String := ⟨extractBraces (jsTrimL s.data)⟩

/-- `response.candidates?.[0]?.groundingMetadata?.groundingChunks`. -/
def chunksOf (r : EngResponse) : Option (List GroundingChunk) :=
  (r.candidates.bind List.head?).bind (·.groundingChunks)

/-- Lines 173-177: map the chunks to their `web` references, drop falsy
ones, and keep `{title, uri}`; absent `title`/`uri` become JSON `null`
(standing for the JavaScript `undefined` property values). -/
def chunksToSources (cs : List GroundingChunk) : MiniJson :=
  .arr ((cs.filterMap (·.web)).map (fun w =>
    .obj [("title", match w.1 with | some t => .str t | none => .null),
          ("uri", match w.2 with | some u => .str u | none => .null)]))

/-- `data.groundingSources = ...` on the parsed value.  On a non-object a
strict-mode property assignment raises a `TypeError`. -/
def attachSources (v : MiniJson) (cs : List GroundingChunk) : Except JsError MiniJson :=
  match v with
  | .obj fs => .ok (.obj (fs ++ [("groundingSources", chunksToSources cs)]))
  | _ => .error .typeError

/-- Response handling of `engineerPrompt` after the retry loop
(lines 142-181), parameterised by the platform JSON parser:

* abnormal `finishReason` (neither `"STOP"` nor `"MAX_TOKENS"`) with no
  text throws `AI generation stopped: <reason>`;
* no text throws the empty-response error;
* the brace-extracted substring is parsed; a parse failure throws
  `Failed to parse generated prompt.`;
* grounding chunks, when present, are attached to the parsed value. -/
def engineerPromptTail (parse : String → Option MiniJson) (r : EngResponse) :
    Except JsError MiniJson :=
  let stopped : Option String :=
    match r.candidates with
    | some (c :: _) =>
      if (c.finishReason ≠ some "STOP" ∧ c.finishReason ≠ some "MAX_TOKENS") ∧ hasText r = false
      then some ("AI generation stopped: " ++ jsStrOf c.finishReason)
      else none
    | _ => none
  match stopped with
  | some msg => .error (.thrown msg)
  | none =>
    if hasText r = false then .error (.thrown emptyResponseMsg)
    else
      match parse (extractJsonString (jsStrOf r.text)) with
      | none => .error (.thrown parseFailMsg)
      | some v =>
        match chunksOf r with
        | none => .ok v
        | some cs =>
          match attachSources v cs with
          | .ok v' => .ok v'
          | .error e => .error e

/-! ## Image Generation Stage: response handling

`geminiService.ts` lines 279-288 of `generatePosterImage`:

    if (!response || !response.candidates || !response.candidates[0].content.parts) {
        throw new Error("No image generated");
    }
    const imagePart = response.candidates[0].content.parts.find(p => p.inlineData);
    if (imagePart && imagePart.inlineData) {
        return `data:${imagePart.inlineData.mimeType};base64,${imagePart.inlineData.data}`;
    }
    throw new Error("No image data found");

Note `!response.candidates` is false for an empty array (arrays are truthy),
so `response.candidates[0].content` is then a property read on `undefined`
and raises a `TypeError`; likewise when the first candidate has no
`content`. -/

structure ImgPart where
  inlineData : Option (Option String × Option String)

structure ImgContent where
  parts : Option (List ImgPart)

structure ImgCandidate where
  content : Option ImgContent

structure ImgResponse where
  candidates : Option (List ImgCandidate)

def noImageGeneratedMsg : String := "No image generated"

def noImageDataMsg : String := "No image data found"

def imageResponseResult (r : ImgResponse) : Except JsError String :=
  match r.candidates with
  | none => .error (.thrown noImageGeneratedMsg)
  | some cs =>
    match cs.head? with
    | none => .error .typeError
    | some c0 =>
      match c0.content with
      | none => .error .typeError
      | some content =>
        match content.parts with
        | none => .error (.thrown noImageGeneratedMsg)
        | some parts =>
          match parts.find? (fun p => p.inlineData.isSome) with
          | some part =>
            match part.inlineData with
            | some (mt, d) => .ok ("data:" ++ jsStrOf mt ++ ";base64," ++ jsStrOf d)
            | none => .error (.thrown noImageDataMsg)
          | none => .error (.thrown noImageDataMsg)

/-! ## Retry loop

Both stages inline the same loop (`engineerPrompt` lines 119-139 with base
delay 1000 ms, `generatePosterImage` lines 259-277 with base delay 2000 ms):

    let attempts = 0;
    while (attempts < 3) {
        try { response = await call(); break; }
        catch (error) {
            attempts++;
            if (attempts >= 3) throw error;
            await new Promise(r => setTimeout(r, baseDelay * attempts));
        }
    }

The operation is an oracle from the 1-based attempt index to its outcome.
The loop below is unrolled over the three iterations of `attempts ∈ {0,1,2}`;
the result records the value or final error, the number of invocations, and
the list of backoff waits in order. -/

def retryLoop {E A : Type} (op : Nat → Except E A) (baseDelay : Nat) :
    Except E A × Nat × List Nat :=
  match op 1 with
  | .ok a => (.ok a, 1, [])
  | .error _ =>
    match op 2 with
    | .ok a => (.ok a, 2, [baseDelay * 1])
    | .error _ =>
      match op 3 with
      | .ok a => (.ok a, 3, [baseDelay * 1, baseDelay * 2])
      | .error e => (.error e, 3, [baseDelay * 1, baseDelay * 2])

/-! ## Pipeline Orchestrator

`src/App.tsx` lines 34-93, `handleGenerate`.  React state is the record
below; the two remote stages are oracles (`Except` outcomes), the
availability of the `window.aistudio.openSelectKey` capability is a boolean,
and the returned trace records which stages were invoked, the `visualPrompt`
argument passed to Stage 2, and whether the key-selection flow was
re-triggered from the catch block. -/

inductive AppStatus where
  | idle
  | analyzing
  | generatingImage
  | success
  | error
deriving DecidableEq

/-- The orchestrator-owned React state (`useState` hooks of `App`). -/
structure AppState where
  status : AppStatus
  promptData : Option MiniJson
  resultImage : Option String
  errorMsg : Option String
  lastAnalysisParams : Option (String × Option String)

/-- The fields of `UserInput` the orchestrator logic reads (`aspectRatio`,
`imageSize` and the raw `File` handle are passed through opaquely). -/
structure UserInputM where
  text : String
  imageBase64 : Option String
  forceAnalysis : Option Bool

/-- Observable effects of one `handleGenerate` run. -/
structure RunTrace where
  stage1Invoked : Bool
  stage2Invoked : Bool
  stage2VisualPrompt : Option MiniJson
  keyFlowTriggered : Bool

def jsTruthyOpt : Option MiniJson → Bool
  | none => false
  | some v => jsTruthy v

def permissionDeniedMsg : String := "Permission Denied. Please select a valid paid API key."

def fallbackErrorMsg : String := "An unexpected error occurred."

/-- The catch block (lines 79-92): surface `err.message || fallback`, then,
when it contains `"403"` or `"permission"` AND the key-selection capability
exists, replace it with the fixed permission-denied text and re-trigger the
key-selection flow. -/
def catchError (keySelectAvailable : Bool) (st : AppState) (tr : RunTrace)
    (raw : String) : AppState × RunTrace :=
  let message := if raw = "" then fallbackErrorMsg else raw
  if strContains "403" message || strContains "permission" message then
    if keySelectAvailable then
      ({ st with status := .error, errorMsg := some permissionDeniedMsg },
       { tr with keyFlowTriggered := true })
    else
      ({ st with status := .error, errorMsg := some message }, tr)
  else
    ({ st with status := .error, errorMsg := some message }, tr)

/-- Step 2 of `handleGenerate` (lines 62-77): guard
`if (!currentPromptData) throw`, then call `generatePosterImage` with
`currentPromptData.visualPrompt`. -/
def runStage2 (keySelectAvailable : Bool) (st : AppState) (current : Option MiniJson)
    (stage1Ran : Bool) (gen : Except String String) : AppState × RunTrace :=
  if jsTruthyOpt current = false then
    catchError keySelectAvailable st ⟨stage1Ran, false, none, false⟩ "Prompt data is missing."
  else
    let vp := current.bind (fun v => jsGetField v "visualPrompt")
    let st := { st with status := .generatingImage }
    match gen with
    | .ok url =>
      ({ st with resultImage := some url, status := .success },
       ⟨stage1Ran, true, vp, false⟩)
    | .error e => catchError keySelectAvailable st ⟨stage1Ran, true, vp, false⟩ e

/-- `handleGenerate` (lines 34-93).  Clears the error and result, re-runs
Stage 1 when forced, when the inputs changed since the last successful
analysis, or when no prior structured result is present, then runs Stage 2
with the current structured result; any thrown error lands in `catchError`. -/
def handleGenerate (keySelectAvailable : Bool) (st : AppState) (input : UserInputM)
    (eng : Except String MiniJson) (gen : Except String String) : AppState × RunTrace :=
  let st := { st with errorMsg := none, resultImage := none }
  let inputsChanged : Bool :=
    match st.lastAnalysisParams with
    | none => true
    | some (t, img) => (t != input.text) || (img != input.imageBase64)
  if input.forceAnalysis.getD false || inputsChanged || !(jsTruthyOpt st.promptData) then
    let st1 := { st with status := .analyzing, promptData := none }
    match eng with
    | .error e => catchError keySelectAvailable st1 ⟨true, false, none, false⟩ e
    | .ok d =>
      let ps := some (input.text, input.imageBase64)
      let st2 := { st1 with promptData := some d, lastAnalysisParams := ps }
      runStage2 keySelectAvailable st2 (some d) true gen
  else
    runStage2 keySelectAvailable st st.promptData false gen

/-! ## Helper lemmas -/

theorem strDataAppend (a b : String) : (a ++ b).data = a.data ++ b.data := by
  cases a
  cases b
  rfl

theorem strEqOfData {a b : String} (h : a.data = b.data) : a = b := by
  cases a
  cases b
  exact congrArg String.mk h

theorem firstIdx_append_not_mem {c : Char} {xs : List Char} (ys : List Char)
    (h : c ∉ xs) : firstIdx c (xs ++ c :: ys) = some xs.length := by
  induction xs with
  | nil => simp [firstIdx]
  | cons x xs' ih =>
    have hx : ¬ x = c := fun hxc => h (hxc ▸ List.mem_cons_self x xs')
    have hxs : c ∉ xs' := fun hm => h (List.mem_cons_of_mem x hm)
    simp [firstIdx, hx, ih hxs]

theorem find_append_first {α : Type} (p : α → Bool) (pre : List α) (x : α)
    (rest : List α) (hpre : ∀ q ∈ pre, p q = false) (hx : p x = true) :
    (pre ++ x :: rest).find? p = some x := by
  induction pre with
  | nil => simp [List.find?, hx]
  | cons c pre' ih =>
    have hc := hpre c (List.mem_cons_self c pre')
    have hp' : ∀ q ∈ pre', p q = false := fun q hq => hpre q (List.mem_cons_of_mem c hq)
    simp [List.find?, hc, ih hp']

theorem parseFail_ne_stopped (reason : String) :
    parseFailMsg ≠ "AI generation stopped: " ++ reason := by
  intro h
  obtain ⟨rd⟩ := reason
  have h3 : parseFailMsg.data.head? = some 'F' := rfl
  rw [h] at h3
  have h2 : ("AI generation stopped: " ++ String.mk rd).data.head? = some 'A' := rfl
  rw [h2] at h3
  exact absurd h3 (by decide)

/-! ## C2: the inlined retry loop -/

/-- Claim C2: for every operation given to the inlined retry loop of either
stage, a success at attempt `k ≤ 3` is returned after exactly `k`
invocations, with the waits `baseDelay*1, ..., baseDelay*(k-1)` in between;
three failures re-raise the last error after exactly 3 invocations with the
two waits `baseDelay*1` then `baseDelay*2`. -/
theorem claim2_retry_loop {E A : Type} (op : Nat → Except E A) (baseDelay : Nat) :
    (∀ a, op 1 = .ok a → retryLoop op baseDelay = (.ok a, 1, [])) ∧
    (∀ e₁ a, op 1 = .error e₁ → op 2 = .ok a →
      retryLoop op baseDelay = (.ok a, 2, [baseDelay * 1])) ∧
    (∀ e₁ e₂ a, op 1 = .error e₁ → op 2 = .error e₂ → op 3 = .ok a →
      retryLoop op baseDelay = (.ok a, 3, [baseDelay * 1, baseDelay * 2])) ∧
    (∀ e₁ e₂ e₃, op 1 = .error e₁ → op 2 = .error e₂ → op 3 = .error e₃ →
      retryLoop op baseDelay = (.error e₃, 3, [baseDelay * 1, baseDelay * 2])) := by
  refine ⟨?_, ?_, ?_, ?_⟩ <;> intros <;> simp [retryLoop, *]

/-- Witness for C2 at an always-failing operation with the Stage-1 base
delay: the third error is re-raised after 3 invocations and waits of
1000 ms then 2000 ms. -/
theorem claim2_retry_loop_witness :
    retryLoop (fun _ => (.error "boom" : Except String Nat)) 1000 =
      (.error "boom", 3, [1000, 2000]) :=
  (claim2_retry_loop (fun _ => .error "boom") 1000).2.2.2 "boom" "boom" "boom" rfl rfl rfl

/-! ## C4: decode fallback on non-matching input -/

/-- Counterexample to Claim C4 as stated: `"a,b,c"` does not match the
data-URL pattern, and the fallback payload is `"b"` — the field between the
first and second commas — not `"b,c"`, the substring after the first comma. -/
theorem claim4_counterexample :
    dataUrlMatch "a,b,c" = none ∧
    decodeDataUrl "a,b,c" = ("image/jpeg", some "b") ∧
    ("b" : String) ≠ "b,c" :=
  ⟨rfl, rfl, by decide⟩

/-- Claim C4 (amended): for every input not matching the pattern, the decode
step never raises; it yields MIME type `"image/jpeg"` and, as payload, the
field of the input between the first and second commas (JavaScript
`split(',')[1]`), which is absent (`undefined`) when the input has no
comma. -/
theorem claim4_fallback_decode (s : String) (h : dataUrlMatch s = none) :
    (decodeDataUrl s).1 = "image/jpeg" ∧
    (∀ pre rest, ',' ∉ pre → s.data = pre ++ ',' :: rest →
      (decodeDataUrl s).2 = some ⟨rest.takeWhile (fun c => c != ',')⟩) ∧
    (',' ∉ s.data → (decodeDataUrl s).2 = none) := by
  refine ⟨?_, ?_, ?_⟩
  · simp [decodeDataUrl, h]
  · intro pre rest hpre hdec
    obtain ⟨t, ht⟩ := @jsSplit_head ',' rest
    simp [decodeDataUrl, h, hdec, jsSplit_append_sep hpre, ht, List.get?]
  · intro hnm
    simp [decodeDataUrl, h, jsSplit_of_not_mem hnm, List.get?]

/-- Witness for C4 at concrete non-matching inputs with two, one and zero
commas worth of fields. -/
theorem claim4_fallback_decode_witness :
    (decodeDataUrl "hello,wo,rld").1 = "image/jpeg" ∧
    (decodeDataUrl "hello,wo,rld").2 = some "wo" ∧
    (decodeDataUrl "nocomma").2 = none := by
  refine ⟨(claim4_fallback_decode "hello,wo,rld" rfl).1, ?_, ?_⟩
  · have hh := (claim4_fallback_decode "hello,wo,rld" rfl).2.1
      ['h', 'e', 'l', 'l', 'o'] ['w', 'o', ',', 'r', 'l', 'd'] (by decide) (by decide)
    exact hh
  · exact (claim4_fallback_decode "nocomma" rfl).2.2 (by decide)

/-! ## C5: decode/encode round trip on matching input -/

/-- Claim C5: for every string matching `data:<mime>;base64,<payload>`,
re-encoding the captured groups reproduces the original string. -/
theorem claim5_roundtrip (s m p : String) (h : dataUrlMatch s = some (m, p)) :
    encodeDataUrl m p = s := by
  simp only [dataUrlMatch] at h
  split at h
  case isFalse => exact absurd h (by simp)
  case isTrue hpre =>
    split at h
    case isTrue => exact absurd h (by simp)
    case isFalse hnl =>
      cases hg : greedyPosGo (s.data.drop 5) (s.data.drop 5).length with
      | none => rw [hg] at h; exact absurd h (by simp)
      | some k =>
        rw [hg] at h
        simp only [Option.some.injEq, Prod.mk.injEq] at h
        obtain ⟨hm, hp⟩ := h
        have hv := greedyPosGo_valid hg
        simp only [validSplitPos, Bool.and_eq_true, decide_eq_true_eq] at hv
        obtain ⟨⟨hsep, -⟩, -⟩ := hv
        obtain ⟨t, ht⟩ := List.isPrefixOf_iff_prefix.mp hpre
        have ht5 : s.data.drop 5 = t := by
          rw [← ht, show (5 : Nat) = dataColon.length from rfl, List.drop_left]
        obtain ⟨u, hu⟩ := List.isPrefixOf_iff_prefix.mp hsep
        have hu8 : (s.data.drop 5).drop (k + 8) = u := by
          have h1 : (s.data.drop 5).drop (k + 8) = ((s.data.drop 5).drop k).drop 8 := by
            simp only [List.drop_drop]
            rw [Nat.add_assoc]
          rw [h1, ← hu, show (8 : Nat) = base64Sep.length from rfl, List.drop_left]
        apply strEqOfData
        rw [← hm, ← hp]
        have hd : (encodeDataUrl ⟨(s.data.drop 5).take k⟩ ⟨(s.data.drop 5).drop (k + 8)⟩).data
            = ((dataColon ++ (s.data.drop 5).take k) ++ base64Sep) ++ (s.data.drop 5).drop (k + 8) := rfl
        rw [hd, List.append_assoc, List.append_assoc, hu8, hu, List.take_append_drop, ht5, ht]

/-- Witness for C5 at a concrete valid data URL. -/
theorem claim5_roundtrip_witness :
    dataUrlMatch "data:image/png;base64,iVBORw" = some ("image/png", "iVBORw") ∧
    encodeDataUrl "image/png" "iVBORw" = "data:image/png;base64,iVBORw" :=
  ⟨rfl, claim5_roundtrip "data:image/png;base64,iVBORw" "image/png" "iVBORw" rfl⟩

/-! ## C9: live-data keyword rewrite -/

/-- The concrete input of the claim, built without a literal apostrophe. -/
def weatherQuery : String :=
  "What" ++ String.singleton (Char.ofNat 39) ++ "s the weather in Tokyo"

/-- Claim C9: a non-empty input containing a live-data keyword
case-insensitively is rewritten to the search instruction; an input with no
keyword, or an empty input, is passed through unchanged; the weather query
triggers the rewrite. -/
theorem claim9_live_data_rewrite (s : String) :
    (s ≠ "" → (∃ kw ∈ dataKeywords, strContains kw (jsToLowerStr s) = true) →
      finalInputText s = searchRewrite s) ∧
    ((¬ ∃ kw ∈ dataKeywords, strContains kw (jsToLowerStr s) = true) →
      finalInputText s = s) ∧
    (s = "" → finalInputText s = s) ∧
    (needsSearch weatherQuery = true ∧
      finalInputText weatherQuery = searchRewrite weatherQuery) := by
  refine ⟨?_, ?_, ?_, rfl, rfl⟩
  · intro hne hex
    have h1 : (s != "") = true := by simp [bne, hne]
    have h2 : dataKeywords.any (fun kw => strContains kw (jsToLowerStr s)) = true := by
      rw [List.any_eq_true]
      obtain ⟨kw, hkw, hc⟩ := hex
      exact ⟨kw, hkw, hc⟩
    simp [finalInputText, needsSearch, h1, h2]
  · intro hnex
    have h2 : dataKeywords.any (fun kw => strContains kw (jsToLowerStr s)) = false := by
      rw [Bool.eq_false_iff]
      intro hany
      exact hnex (List.any_eq_true.mp hany)
    simp [finalInputText, needsSearch, h2]
  · intro he
    subst he
    rfl

/-- Witness for C9: the weather query is rewritten; `"hello"` is not. -/
theorem claim9_live_data_rewrite_witness :
    finalInputText weatherQuery = searchRewrite weatherQuery ∧
    finalInputText "hello" = "hello" :=
  ⟨(claim9_live_data_rewrite weatherQuery).1 (by decide) (by decide),
   (claim9_live_data_rewrite "hello").2.1 (by decide)⟩

/-! ## C3: permission-error rewriting in the orchestrator catch block -/

/-- Counterexample to Claim C3 as stated: when the external key-selection
capability (`window.aistudio.openSelectKey`) is unavailable, an error whose
message contains `"403"` is surfaced verbatim and the key-selection flow is
not re-triggered, so the surfaced message is not the fixed permission-denied
text. -/
theorem claim3_counterexample :
    (handleGenerate false ⟨.idle, none, none, none, none⟩ ⟨"A", none, none⟩
        (.error "403") (.ok "u")).1.errorMsg = some "403" ∧
    (handleGenerate false ⟨.idle, none, none, none, none⟩ ⟨"A", none, none⟩
        (.error "403") (.ok "u")).2.keyFlowTriggered = false ∧
    ("403" : String) ≠ permissionDeniedMsg :=
  ⟨rfl, rfl, by decide⟩

/-- Claim C3 (amended): for every caught error with a non-empty message
containing `"403"` or `"permission"`, when the key-selection capability is
available the status becomes Error, the surfaced message is exactly the
fixed permission-denied text, and the key-selection flow is re-triggered;
every other non-empty message — and, capability absent, every non-empty
message — is surfaced verbatim. -/
theorem claim3_permission_rewrite :
    (∀ (st : AppState) (tr : RunTrace) (raw : String), raw ≠ "" →
      (strContains "403" raw || strContains "permission" raw) = true →
      (catchError true st tr raw).1.errorMsg = some permissionDeniedMsg ∧
      (catchError true st tr raw).1.status = .error ∧
      (catchError true st tr raw).2.keyFlowTriggered = true) ∧
    (∀ (a : Bool) (st : AppState) (tr : RunTrace) (raw : String), raw ≠ "" →
      (strContains "403" raw || strContains "permission" raw) = false →
      (catchError a st tr raw).1.errorMsg = some raw ∧
      (catchError a st tr raw).1.status = .error ∧
      (catchError a st tr raw).2 = tr) ∧
    (∀ (st : AppState) (tr : RunTrace) (raw : String), raw ≠ "" →
      (catchError false st tr raw).1.errorMsg = some raw) := by
  refine ⟨?_, ?_, ?_⟩
  · intro st tr raw hne hc
    simp [catchError, hne, hc]
  · intro a st tr raw hne hc
    simp [catchError, hne, hc]
  · intro st tr raw hne
    by_cases hc : (strContains "403" raw || strContains "permission" raw) = true
    · simp [catchError, hne, hc]
    · simp only [Bool.not_eq_true] at hc
      simp [catchError, hne, hc]

/-- Witness for C3 (amended) at concrete messages. -/
theorem claim3_permission_rewrite_witness :
    (catchError true ⟨.idle, none, none, none, none⟩ ⟨true, false, none, false⟩
      "HTTP 403 quota").1.errorMsg = some permissionDeniedMsg ∧
    (catchError true ⟨.idle, none, none, none, none⟩ ⟨true, false, none, false⟩
      "oops").1.errorMsg = some "oops" ∧
    (catchError false ⟨.idle, none, none, none, none⟩ ⟨true, false, none, false⟩
      "HTTP 403 quota").1.errorMsg = some "HTTP 403 quota" :=
  ⟨(claim3_permission_rewrite.1 _ _ "HTTP 403 quota" (by decide) (by decide)).1,
   (claim3_permission_rewrite.2.1 true _ _ "oops" (by decide) (by decide)).1,
   claim3_permission_rewrite.2.2 _ _ "HTTP 403 quota" (by decide)⟩

/-! ## C7: image-response error classification -/

/-- Counterexample to Claim C7 as stated: a response whose `candidates`
field is present but an empty list has no candidate output, yet the code
crashes with a `TypeError` (reading `.content` of `undefined`) instead of
failing with the `No image generated` error. -/
theorem claim7_counterexample :
    imageResponseResult ⟨some []⟩ = .error .typeError ∧
    JsError.typeError ≠ JsError.thrown noImageGeneratedMsg :=
  ⟨rfl, by decide⟩

/-- Claim C7 (amended): `generatePosterImage` fails with `No image
generated` when the `candidates` field is absent or the first candidate's
`parts` field is absent; it crashes with a `TypeError` when the candidates
list is empty or the first candidate has no `content`; it fails with
`No image data found` when no part carries inline data; it returns the data
URL of the first part carrying inline data; and an `ok` result only ever
arises from such a part (no partially constructed data URL is returned on
any failure). -/
theorem claim7_image_response_errors (r : ImgResponse) :
    (r.candidates = none → imageResponseResult r = .error (.thrown noImageGeneratedMsg)) ∧
    (r.candidates = some [] → imageResponseResult r = .error .typeError) ∧
    (∀ c cs, r.candidates = some (c :: cs) → c.content = none →
      imageResponseResult r = .error .typeError) ∧
    (∀ c cs ct, r.candidates = some (c :: cs) → c.content = some ct → ct.parts = none →
      imageResponseResult r = .error (.thrown noImageGeneratedMsg)) ∧
    (∀ c cs ct ps, r.candidates = some (c :: cs) → c.content = some ct →
      ct.parts = some ps → (∀ q ∈ ps, q.inlineData = none) →
      imageResponseResult r = .error (.thrown noImageDataMsg)) ∧
    (∀ c cs ct pre part rest mt d, r.candidates = some (c :: cs) → c.content = some ct →
      ct.parts = some (pre ++ part :: rest) → (∀ q ∈ pre, q.inlineData = none) →
      part.inlineData = some (mt, d) →
      imageResponseResult r = .ok ("data:" ++ jsStrOf mt ++ ";base64," ++ jsStrOf d)) ∧
    (∀ url, imageResponseResult r = .ok url →
      ∃ c cs ct ps part mt d, r.candidates = some (c :: cs) ∧ c.content = some ct ∧
        ct.parts = some ps ∧ part ∈ ps ∧ part.inlineData = some (mt, d) ∧
        url = "data:" ++ jsStrOf mt ++ ";base64," ++ jsStrOf d) := by
  refine ⟨?_, ?_, ?_, ?_, ?_, ?_, ?_⟩
  · intro h
    simp [imageResponseResult, h]
  · intro h
    simp [imageResponseResult, h]
  · intro c cs h hc
    simp [imageResponseResult, h, hc]
  · intro c cs ct h hc hp
    simp [imageResponseResult, h, hc, hp]
  · intro c cs ct ps h hc hp hnone
    have hfind : ps.find? (fun p => p.inlineData.isSome) = none := by
      rw [List.find?_eq_none]
      intro q hq
      simp [hnone q hq]
    simp [imageResponseResult, h, hc, hp, hfind]
  · intro c cs ct pre part rest mt d h hc hp hpre hinl
    have hfind : (pre ++ part :: rest).find? (fun p => p.inlineData.isSome) = some part := by
      refine find_append_first _ pre part rest (fun q hq => ?_) (by simp [hinl])
      simp [hpre q hq]
    simp [imageResponseResult, h, hc, hp, hfind, hinl]
  · intro url hok
    cases hcand : r.candidates with
    | none => simp [imageResponseResult, hcand] at hok
    | some cl =>
      cases cl with
      | nil => simp [imageResponseResult, hcand] at hok
      | cons c cs =>
        cases hcont : c.content with
        | none => simp [imageResponseResult, hcand, hcont] at hok
        | some ct =>
          cases hps : ct.parts with
          | none => simp [imageResponseResult, hcand, hcont, hps] at hok
          | some ps =>
            cases hfind : ps.find? (fun p => p.inlineData.isSome) with
            | none => simp [imageResponseResult, hcand, hcont, hps, hfind] at hok
            | some part =>
              cases hinl : part.inlineData with
              | none => simp [imageResponseResult, hcand, hcont, hps, hfind, hinl] at hok
              | some md =>
                simp only [imageResponseResult, hcand, hcont, hps, hfind, hinl,
                  List.head?_cons, Except.ok.injEq] at hok
                exact ⟨c, cs, ct, ps, part, md.1, md.2, rfl, hcont, hps,
                  List.mem_of_find?_eq_some hfind, by rw [hinl], hok.symm⟩

/-- Witness for C7 (amended) at concrete responses: a candidate with no
`parts` field, a candidate whose parts carry no inline data, and a success
whose second part carries the image. -/
theorem claim7_image_response_errors_witness :
    imageResponseResult ⟨none⟩ = .error (.thrown noImageGeneratedMsg) ∧
    imageResponseResult ⟨some [⟨some ⟨some [⟨none⟩]⟩⟩]⟩ = .error (.thrown noImageDataMsg) ∧
    imageResponseResult ⟨some [⟨some ⟨some [⟨none⟩, ⟨some (some "image/png", some "XYZ")⟩]⟩⟩]⟩ =
      .ok "data:image/png;base64,XYZ" := by
  refine ⟨(claim7_image_response_errors ⟨none⟩).1 rfl, ?_, ?_⟩
  · exact (claim7_image_response_errors _).2.2.2.2.1 _ [] _ [⟨none⟩] rfl rfl rfl
      (by intro q hq; simp at hq; rw [hq])
  · exact (claim7_image_response_errors _).2.2.2.2.2.1 _ [] _ [⟨none⟩]
      ⟨some (some "image/png", some "XYZ")⟩ [] (some "image/png") (some "XYZ")
      rfl rfl rfl (by intro q hq; simp at hq; rw [hq]) rfl

/-! ## C8: engineer-prompt response error classification -/

/-- Claim C8: with no text and a first candidate that stopped normally (or
no first candidate at all), `engineerPrompt` fails with the empty-response
error; with no text and an abnormal stop reason it fails with the
generation-stopped error carrying that reason; with text present neither
error is raised, whatever the stop reason. -/
theorem claim8_engineer_response_errors (parse : String → Option MiniJson) (r : EngResponse) :
    (hasText r = false →
      (match r.candidates with
       | some (c :: _) => c.finishReason = some "STOP" ∨ c.finishReason = some "MAX_TOKENS"
       | _ => True) →
      engineerPromptTail parse r = .error (.thrown emptyResponseMsg)) ∧
    (∀ c cs, r.candidates = some (c :: cs) →
      ¬ (c.finishReason = some "STOP" ∨ c.finishReason = some "MAX_TOKENS") →
      hasText r = false →
      engineerPromptTail parse r =
        .error (.thrown ("AI generation stopped: " ++ jsStrOf c.finishReason))) ∧
    (hasText r = true → ∀ reason,
      engineerPromptTail parse r ≠ .error (.thrown emptyResponseMsg) ∧
      engineerPromptTail parse r ≠
        .error (.thrown ("AI generation stopped: " ++ reason))) := by
  refine ⟨?_, ?_, ?_⟩
  · intro hft hnorm
    cases hcand : r.candidates with
    | none => simp [engineerPromptTail, hcand, hft]
    | some cl =>
      cases cl with
      | nil => simp [engineerPromptTail, hcand, hft]
      | cons c cs =>
        rw [hcand] at hnorm
        rcases hnorm with hr | hr <;> simp [engineerPromptTail, hcand, hft, hr]
  · intro c cs hcand hab hft
    push_neg at hab
    simp [engineerPromptTail, hcand, hft, hab.1, hab.2]
  · intro hft reason
    have hE : engineerPromptTail parse r =
        (match parse (extractJsonString (jsStrOf r.text)) with
         | none => Except.error (JsError.thrown parseFailMsg)
         | some v =>
           match chunksOf r with
           | none => Except.ok v
           | some cs =>
             match attachSources v cs with
             | .ok v' => Except.ok v'
             | .error e => Except.error e) := by
      cases hcand : r.candidates with
      | none => simp [engineerPromptTail, hcand, hft]
      | some cl =>
        cases cl with
        | nil => simp [engineerPromptTail, hcand, hft]
        | cons c cs => simp [engineerPromptTail, hcand, hft]
    rw [hE]
    cases hp : parse (extractJsonString (jsStrOf r.text)) with
    | none =>
      simp only [hp]
      refine ⟨?_, ?_⟩ <;> intro hcontra <;>
        simp only [Except.error.injEq, JsError.thrown.injEq] at hcontra
      · exact absurd hcontra (by decide)
      · exact parseFail_ne_stopped reason hcontra
    | some w =>
      simp only [hp]
      cases hch : chunksOf r with
      | none => simp only [hch]; exact ⟨by simp, by simp⟩
      | some cs =>
        simp only [hch]
        cases ha : attachSources w cs with
        | ok v' => simp only [ha]; exact ⟨by simp, by simp⟩
        | error e =>
          simp only [ha]
          have he : e = JsError.typeError := by
            cases w with
            | obj fs => exact absurd ha (by simp [attachSources])
            | null => simp only [attachSources, Except.error.injEq] at ha; exact ha.symm
            | bool b => simp only [attachSources, Except.error.injEq] at ha; exact ha.symm
            | num n => simp only [attachSources, Except.error.injEq] at ha; exact ha.symm
            | str s => simp only [attachSources, Except.error.injEq] at ha; exact ha.symm
            | arr xs => simp only [attachSources, Except.error.injEq] at ha; exact ha.symm
          subst he
          exact ⟨by simp, by simp⟩

/-- Witness for C8 at concrete responses: one with neither text nor
candidates, one with an abnormal `SAFETY` stop and no text, one with text
and an abnormal stop. -/
theorem claim8_engineer_response_errors_witness :
    engineerPromptTail miniJsonParse ⟨none, none⟩ = .error (.thrown emptyResponseMsg) ∧
    engineerPromptTail miniJsonParse ⟨some [⟨some "SAFETY", none⟩], none⟩ =
      .error (.thrown "AI generation stopped: SAFETY") ∧
    engineerPromptTail miniJsonParse ⟨some [⟨some "SAFETY", none⟩], some "7"⟩ ≠
      .error (.thrown emptyResponseMsg) := by
  refine ⟨(claim8_engineer_response_errors miniJsonParse ⟨none, none⟩).1 rfl trivial, ?_, ?_⟩
  · exact (claim8_engineer_response_errors miniJsonParse _).2.1 ⟨some "SAFETY", none⟩ []
      rfl (by decide) rfl
  · exact ((claim8_engineer_response_errors miniJsonParse
      ⟨some [⟨some "SAFETY", none⟩], some "7"⟩).2.2 rfl "SAFETY").1

/-! ## C6: brace extraction and parse-failure classification -/

/-- The response text of the claim: JSON surrounded by prose. -/
def exampleProseText : String :=
  "Here is the result: \x7b\"posterTitle\":\"X\",\"posterSubtitle\":\"Y\",\"visualPrompt\":\"Z\"\x7d Thanks!"

/-- A response carrying the prose-wrapped JSON with a normal stop and no
grounding metadata. -/
def exampleProseResponse : EngResponse :=
  ⟨some [⟨some "STOP", none⟩], some exampleProseText⟩

/-- Claim C6: on a trimmed text decomposing as `pre ++ '\x7b' :: mid ++
'\x7d' :: post` with no `'\x7b'` before and no `'\x7d'` after, the parse
input is exactly the substring from the first `'\x7b'` to the last
`'\x7d'`; the prose-wrapped example yields the three-field object; and
whenever the extracted substring fails to parse, `engineerPrompt` fails
with the `Failed to parse generated prompt.` error. -/
theorem claim6_brace_extraction :
    (∀ (t : String) (pre mid post : List Char),
      jsTrimL t.data = pre ++ '\x7b' :: (mid ++ '\x7d' :: post) →
      '\x7b' ∉ pre → '\x7d' ∉ post →
      (extractJsonString t).data = '\x7b' :: (mid ++ ['\x7d'])) ∧
    engineerPromptTail miniJsonParse exampleProseResponse =
      .ok (.obj [("posterTitle", .str "X"), ("posterSubtitle", .str "Y"),
                 ("visualPrompt", .str "Z")]) ∧
    (∀ (parse : String → Option MiniJson) (r : EngResponse), hasText r = true →
      parse (extractJsonString (jsStrOf r.text)) = none →
      engineerPromptTail parse r = .error (.thrown parseFailMsg)) := by
  refine ⟨?_, rfl, ?_⟩
  · intro t pre mid post htrim hpre hpost
    show extractBraces (jsTrimL t.data) = _
    rw [htrim]
    have hfi : firstIdx '\x7b' (pre ++ '\x7b' :: (mid ++ '\x7d' :: post)) = some pre.length :=
      firstIdx_append_not_mem _ hpre
    have hrev : (pre ++ '\x7b' :: (mid ++ '\x7d' :: post)).reverse
        = post.reverse ++ '\x7d' :: ((pre ++ '\x7b' :: mid).reverse) := by
      simp [List.reverse_append, List.append_assoc]
    have hpost' : '\x7d' ∉ post.reverse := fun hm => hpost (List.mem_reverse.mp hm)
    have hfj : firstIdx '\x7d' ((pre ++ '\x7b' :: (mid ++ '\x7d' :: post)).reverse)
        = some post.length := by
      rw [hrev, firstIdx_append_not_mem _ hpost']
      simp
    have hlast : lastIdx '\x7d' (pre ++ '\x7b' :: (mid ++ '\x7d' :: post))
        = some (pre.length + mid.length + 1) := by
      rw [lastIdx, hfj]
      simp only [Option.map_some']
      congr 1
      simp only [List.length_append, List.length_cons]
      omega
    simp only [extractBraces, hfi, hlast]
    have hmin : min pre.length (pre.length + mid.length + 1 + 1) = pre.length := by omega
    have hmax : max pre.length (pre.length + mid.length + 1 + 1)
        = pre.length + mid.length + 1 + 1 := by omega
    have hsub : pre.length + mid.length + 1 + 1 - pre.length = mid.length + 2 := by omega
    simp only [jsSubstringL, hmin, hmax, hsub]
    rw [show (pre ++ '\x7b' :: (mid ++ '\x7d' :: post)) =
        (pre ++ ('\x7b' :: (mid ++ '\x7d' :: post)) : List Char) from rfl, List.drop_left]
    rw [show (mid.length + 2) = (mid.length + 1) + 1 from rfl, List.take_succ_cons]
    have hsplit : mid ++ '\x7d' :: post = (mid ++ ['\x7d']) ++ post := by simp
    rw [hsplit, List.take_left' (by simp)]
  · intro parse r hft hp
    cases hcand : r.candidates with
    | none => simp [engineerPromptTail, hcand, hft, hp]
    | some cl =>
      cases cl with
      | nil => simp [engineerPromptTail, hcand, hft, hp]
      | cons c cs => simp [engineerPromptTail, hcand, hft, hp]

/-- Witness for C6 at a concrete prose-wrapped text and an always-failing
parser. -/
theorem claim6_brace_extraction_witness :
    (extractJsonString "  ab\x7bcd\x7def ").data = '\x7b' :: ("cd".data ++ ['\x7d']) ∧
    engineerPromptTail (fun _ => none) ⟨none, some "x"⟩ = .error (.thrown parseFailMsg) :=
  ⟨claim6_brace_extraction.1 "  ab\x7bcd\x7def " "ab".data "cd".data "ef".data
      (by decide) (by decide) (by decide),
   claim6_brace_extraction.2.2 (fun _ => none) ⟨none, some "x"⟩ rfl rfl⟩

/-! ## C10: no shape validation of the parsed prompt -/

/-- Claim C10: whatever JSON value the extracted substring parses to —
including the empty object and bare scalars — `engineerPrompt` returns it
unchanged (grounding attachment aside), with no check of the
`EngineeredPrompt` shape; the orchestrator then invokes Stage 2 with that
value's possibly-undefined `visualPrompt`. -/
theorem claim10_no_validation :
    (∀ (parse : String → Option MiniJson) (r : EngResponse) (v : MiniJson),
      hasText r = true → chunksOf r = none →
      parse (extractJsonString (jsStrOf r.text)) = some v →
      engineerPromptTail parse r = .ok v) ∧
    miniJsonParse "\x7b\x7d" = some (.obj []) ∧
    miniJsonParse "7" = some (.num 7) ∧
    (handleGenerate true ⟨.idle, none, none, none, none⟩ ⟨"t", none, none⟩
        (.ok (.obj [])) (.ok "url")).2.stage2Invoked = true ∧
    (handleGenerate true ⟨.idle, none, none, none, none⟩ ⟨"t", none, none⟩
        (.ok (.obj [])) (.ok "url")).2.stage2VisualPrompt = none := by
  refine ⟨?_, rfl, rfl, rfl, rfl⟩
  intro parse r v hft hch hp
  cases hcand : r.candidates with
  | none => simp [engineerPromptTail, hcand, hft, hp, hch]
  | some cl =>
    cases cl with
    | nil => simp [engineerPromptTail, hcand, hft, hp, hch]
    | cons c cs => simp [engineerPromptTail, hcand, hft, hp, hch]

/-- Witness for C10: the response whose whole text is `\x7b\x7d` parses to
the empty object — with no `posterTitle`, `posterSubtitle` or
`visualPrompt` — and is returned as-is. -/
theorem claim10_no_validation_witness :
    engineerPromptTail miniJsonParse ⟨none, some "\x7b\x7d"⟩ = .ok (.obj []) :=
  claim10_no_validation.1 miniJsonParse ⟨none, some "\x7b\x7d"⟩ (.obj []) rfl rfl rfl

/-! ## C1: skip re-analysis on identical resubmission -/

/-- Claim C1: when a prior (truthy) structured result exists, the submitted
text and image equal the recorded last-analysis inputs, and re-analysis is
not forced, `handleGenerate` does not invoke Stage 1 and invokes Stage 2
with the cached structured prompt's `visualPrompt`; and a Stage-2 failure
leaves both the cached structured prompt and the last-analysis-inputs
record unchanged — which is also why the skip applies after a run that
failed in Stage 2. -/
theorem claim1_skip_reanalysis (a : Bool) (st : AppState) (input : UserInputM)
    (eng : Except String MiniJson) (gen : Except String String) (d : MiniJson)
    (hPrompt : st.promptData = some d) (hTruthy : jsTruthy d = true)
    (hParams : st.lastAnalysisParams = some (input.text, input.imageBase64))
    (hForce : input.forceAnalysis.getD false = false) :
    (handleGenerate a st input eng gen).2.stage1Invoked = false ∧
    (handleGenerate a st input eng gen).2.stage2Invoked = true ∧
    (handleGenerate a st input eng gen).2.stage2VisualPrompt = jsGetField d "visualPrompt" ∧
    (∀ e, gen = .error e →
      (handleGenerate a st input eng gen).1.promptData = st.promptData ∧
      (handleGenerate a st input eng gen).1.lastAnalysisParams = st.lastAnalysisParams) := by
  obtain ⟨sst, spd, sri, sem, slap⟩ := st
  obtain ⟨itext, iimg, iforce⟩ := input
  simp only at hPrompt hParams
  subst hPrompt
  subst hParams
  have hchanged :
      ((itext != itext) || ((iimg : Option String) != iimg)) = false := by
    simp
  have hguard : (iforce.getD false || ((itext != itext) || (iimg != iimg))
      || !(jsTruthyOpt (some d))) = false := by
    simp [hchanged, hForce, jsTruthyOpt, hTruthy]
  simp only [handleGenerate, hguard, Bool.false_eq_true, if_false]
  simp only [runStage2, jsTruthyOpt, hTruthy, Bool.true_eq_false, if_false,
    Option.bind_some]
  cases gen with
  | ok url => simp
  | error e =>
    simp only [catchError]
    refine ⟨?_, ?_, ?_, ?_⟩ <;> split_ifs <;> simp

/-- Witness for C1: resubmitting `text="A"`, no image, after a successful
analysis cached `\x7bvisualPrompt: "Z"\x7d`, with Stage 2 failing, skips
Stage 1, passes `"Z"` to Stage 2, and keeps the cache intact. -/
theorem claim1_skip_reanalysis_witness :
    (handleGenerate true
      ⟨.error, some (.obj [("visualPrompt", .str "Z")]), none, some "boom",
        some ("A", none)⟩
      ⟨"A", none, none⟩ (.error "unused") (.error "boom")).2.stage1Invoked = false ∧
    (handleGenerate true
      ⟨.error, some (.obj [("visualPrompt", .str "Z")]), none, some "boom",
        some ("A", none)⟩
      ⟨"A", none, none⟩ (.error "unused") (.error "boom")).2.stage2Invoked = true ∧
    (handleGenerate true
      ⟨.error, some (.obj [("visualPrompt", .str "Z")]), none, some "boom",
        some ("A", none)⟩
      ⟨"A", none, none⟩ (.error "unused") (.error "boom")).2.stage2VisualPrompt =
      some (.str "Z") ∧
    (handleGenerate true
      ⟨.error, some (.obj [("visualPrompt", .str "Z")]), none, some "boom",
        some ("A", none)⟩
      ⟨"A", none, none⟩ (.error "unused") (.error "boom")).1.promptData =
      some (.obj [("visualPrompt", .str "Z")]) ∧
    (handleGenerate true
      ⟨.error, some (.obj [("visualPrompt", .str "Z")]), none, some "boom",
        some ("A", none)⟩
      ⟨"A", none, none⟩ (.error "unused") (.error "boom")).1.lastAnalysisParams =
      some ("A", none) := by
  have h := claim1_skip_reanalysis true
    ⟨.error, some (.obj [("visualPrompt", .str "Z")]), none, some "boom", some ("A", none)⟩
    ⟨"A", none, none⟩ (.error "unused") (.error "boom")
    (.obj [("visualPrompt", .str "Z")]) rfl rfl rfl rfl
  exact ⟨h.1, h.2.1, h.2.2.1, (h.2.2.2 "boom" rfl).1, (h.2.2.2 "boom" rfl).2⟩
